import Mathlib

/-!
Shallow embedding of the data-preparation pipeline of get_co2.py
(function get_noaa_data): normalization of raw NOAA rows into a
date-indexed series, the monthly-mean aggregation, the trailing-window
selection, and the positional anchor extraction.  Numeric ppm values
are modelled exactly as rationals; pandas NaN alignment is modelled by
Option.  Failures (pandas IndexError, Python ValueError on date.replace,
parse failures in to_datetime) are modelled by Except.
-/

namespace CO2

/-- Error kinds reachable in the modelled fragment of get_noaa_data:
pandas iloc out-of-bounds (IndexError), datetime.date.replace on an
invalid resulting date (ValueError), and pd.to_datetime on unparseable
year/month/day components. -/
inductive PErr where
  | indexError : PErr
  | valueError : PErr
  | parseError : PErr
deriving DecidableEq, Repr

/-- A calendar date, the index type produced by pd.to_datetime on the
year/month/day columns. -/
structure Date where
  year : Nat
  month : Nat
  day : Nat
deriving DecidableEq, Repr

/-- Chronological strict order on dates (lexicographic on
year, month, day), the order of a pandas DatetimeIndex. -/
def dateLT (x y : Date) : Bool :=
  x.year < y.year ||
    (x.year == y.year &&
      (x.month < y.month || (x.month == y.month && x.day < y.day)))

/-- Chronological non-strict order on dates. -/
def dateLE (x y : Date) : Bool :=
  x.year < y.year ||
    (x.year == y.year &&
      (x.month < y.month || (x.month == y.month && x.day ≤ y.day)))

/-- Gregorian leap-year test, as in Python datetime. -/
def isLeap (y : Nat) : Bool :=
  y % 4 == 0 && (y % 100 != 0 || y % 400 == 0)

/-- Number of days of month m in year y (months counted 1..12). -/
def daysInMonth (y m : Nat) : Nat :=
  if m == 2 then (if isLeap y then 29 else 28)
  else if m == 4 || m == 6 || m == 9 || m == 11 then 30
  else 31

/-- Validity of a date under Python datetime rules: year at least
MINYEAR = 1, month in 1..12, day in 1..daysInMonth. -/
def validDate (d : Date) : Bool :=
  1 ≤ d.year && 1 ≤ d.month && d.month ≤ 12 &&
    1 ≤ d.day && d.day ≤ daysInMonth d.year d.month

/-- One raw row of the NOAA csv after the preamble: the year, month and
day columns plus the two numeric readings. -/
structure RawRow where
  year : Nat
  month : Nat
  day : Nat
  smoothed : ℚ
  trend : ℚ
deriving DecidableEq, Repr

/-- One record of the normalized daily series: indexed by date, the
year/month/day source columns dropped. -/
structure DailyRecord where
  date : Date
  smoothed : ℚ
  trend : ℚ
deriving DecidableEq, Repr

/-- A record after the aggregation step: the same fields plus the
monthly_mean column, which pandas index alignment leaves as NaN
(modelled none) on rows whose date is not a month-end group label. -/
structure AggRecord where
  date : Date
  smoothed : ℚ
  trend : ℚ
  monthly_mean : Option ℚ
deriving DecidableEq, Repr

/-- The date obtained by combining the year, month, day columns of a
raw row, as pd.to_datetime(data.iloc[:, 0:3]) does. -/
def rowDate (r : RawRow) : Date :=
  ⟨r.year, r.month, r.day⟩

/-- Normalizer: data.set_index(pd.to_datetime(data.iloc[:, 0:3])) then
dropping the year, month, day columns.  pd.to_datetime fails on any row
whose components do not form a real calendar date, and the whole
normalization fails with it. -/
def normalize (rows : List RawRow) : Except PErr (List DailyRecord) :=
  if rows.all (fun r => validDate (rowDate r)) then
    Except.ok (rows.map (fun r => ⟨rowDate r, r.smoothed, r.trend⟩))
  else Except.error PErr.parseError

/-- The month-end group label pd.Grouper(freq=M) stamps on a date:
the last calendar day of that date's month. -/
def monthLabel (d : Date) : Date :=
  ⟨d.year, d.month, daysInMonth d.year d.month⟩

/-- Arithmetic mean of the smoothed values of the records of one
calendar month bucket. -/
def monthMean (s : List DailyRecord) (y m : Nat) : ℚ :=
  let g := s.filter (fun r => r.date.year == y && r.date.month == m)
  (g.map (fun r => r.smoothed)).sum / (g.length : ℚ)

/-- Mean smoothed value of the group of records stamped with the
month-end label l. -/
def bucketMean (s : List DailyRecord) (l : Date) : ℚ :=
  let g := s.filter (fun r => monthLabel r.date == l)
  (g.map (fun r => r.smoothed)).sum / (g.length : ℚ)

/-- The Series produced by groupby(Grouper(freq=M))[smoothed].mean():
an association from each month-end group label occurring in the data to
the mean smoothed value of that group. -/
def groupMeans (s : List DailyRecord) : List (Date × ℚ) :=
  ((s.map (fun r => monthLabel r.date)).dedup).map
    (fun l => (l, bucketMean s l))

/-- Index alignment of the groupby-mean Series against a date of the
frame index: the value at an exactly matching label, NaN (none)
otherwise. -/
def alignLookup (gm : List (Date × ℚ)) (d : Date) : Option ℚ :=
  (gm.find? (fun p => p.1 == d)).map (fun p => p.2)

/-- Aggregator: the assignment data[monthly_mean] = groupby mean.  Each
record keeps its fields and gains the aligned monthly_mean value. -/
def aggregate (s : List DailyRecord) : List AggRecord :=
  s.map (fun r => ⟨r.date, r.smoothed, r.trend, alignLookup (groupMeans s) r.date⟩)

/-- Python date.replace with a new year: succeeds iff the resulting
date is valid, otherwise raises ValueError. -/
def replaceYear (d : Date) (y : Nat) : Except PErr Date :=
  if validDate ⟨y, d.month, d.day⟩ then Except.ok ⟨y, d.month, d.day⟩
  else Except.error PErr.valueError

/-- Window Selector: data.loc[startD:endD] on a DatetimeIndex, the
positional slice from the first record with date at least startD up to
the last record with date at most endD (inclusive both ends). -/
def windowSelect (s : List AggRecord) (startD endD : Date) : List AggRecord :=
  (s.dropWhile (fun r => dateLT r.date startD)).takeWhile
    (fun r => dateLE r.date endD)

/-- Anchor extraction: yesterday = data.iloc[-1], year_ago =
data.iloc[-366].  Negative positional indexing raises IndexError when
the series is shorter than the offset; the yesterday lookup runs first,
as in the source. -/
def anchors (s : List AggRecord) : Except PErr (AggRecord × AggRecord) :=
  if h1 : 1 ≤ s.length then
    let yesterday := s.get ⟨s.length - 1, by omega⟩
    if h2 : 366 ≤ s.length then
      Except.ok (yesterday, s.get ⟨s.length - 366, by omega⟩)
    else Except.error PErr.indexError
  else Except.error PErr.indexError

/-- The whole data-preparation pipeline of get_noaa_data on already
fetched rows: normalize, aggregate, compute the window bounds from
today and the lookback year count, filter, extract anchors.  Returns
the filtered series, the window bounds and the two anchor records. -/
def runPipeline (rows : List RawRow) (today : Date) (n : Nat) :
    Except PErr (List AggRecord × Date × Date × AggRecord × AggRecord) := do
  let recs ← normalize rows
  let agg := aggregate recs
  let startD ← replaceYear today (today.year - n)
  let w := windowSelect agg startD today
  let (yesterday, yearAgo) ← anchors w
  Except.ok (w, startD, today, yesterday, yearAgo)

/-- A synthetic aggregated series of a given length, used to evaluate
the positional anchor extraction at concrete sizes. -/
def mkSeries (n : Nat) : List AggRecord :=
  (List.range n).map
    (fun i : Nat => (⟨⟨2020, 1, 1⟩, (i : ℚ), 0, none⟩ : AggRecord))

/-- The literal three-row feed of the end-to-end scenario:
2023-01-01..2023-01-03 with smoothed 420.0, 421.0, 422.0 and trend
419.5, 419.6, 419.7. -/
def exRows : List RawRow :=
  [⟨2023, 1, 1, 420, 4195/10⟩, ⟨2023, 1, 2, 421, 4196/10⟩,
   ⟨2023, 1, 3, 422, 4197/10⟩]

/-- The normalized records of the scenario feed. -/
def exRecs : List DailyRecord :=
  [⟨⟨2023, 1, 1⟩, 420, 4195/10⟩, ⟨⟨2023, 1, 2⟩, 421, 4196/10⟩,
   ⟨⟨2023, 1, 3⟩, 422, 4197/10⟩]

/-! Order lemmas for the date comparisons. -/

theorem dateLT_iff (x y : Date) :
    dateLT x y = true ↔
      (x.year < y.year ∨ (x.year = y.year ∧
        (x.month < y.month ∨ (x.month = y.month ∧ x.day < y.day)))) := by
  simp [dateLT, Bool.or_eq_true, Bool.and_eq_true, decide_eq_true_eq, beq_iff_eq]

theorem dateLE_iff (x y : Date) :
    dateLE x y = true ↔
      (x.year < y.year ∨ (x.year = y.year ∧
        (x.month < y.month ∨ (x.month = y.month ∧ x.day ≤ y.day)))) := by
  simp [dateLE, Bool.or_eq_true, Bool.and_eq_true, decide_eq_true_eq, beq_iff_eq]

theorem dateLE_of_not_dateLT {x y : Date} (h : dateLT x y = false) :
    dateLE y x = true := by
  have h2 : ¬ dateLT x y = true := by simp [h]
  rw [dateLT_iff] at h2
  rw [dateLE_iff]
  omega

theorem not_dateLE_of_dateLT {x y : Date} (h : dateLT x y = true) :
    dateLE y x = false := by
  cases hb : dateLE y x
  · rfl
  · exfalso
    rw [dateLT_iff] at h
    rw [dateLE_iff] at hb
    omega

theorem dateLT_of_not_dateLE {x y : Date} (h : dateLE x y = false) :
    dateLT y x = true := by
  have h2 : ¬ dateLE x y = true := by simp [h]
  rw [dateLE_iff] at h2
  rw [dateLT_iff]
  omega

theorem dateLT_trans {x y z : Date} (h1 : dateLT x y = true)
    (h2 : dateLT y z = true) : dateLT x z = true := by
  rw [dateLT_iff] at h1 h2 ⊢
  omega

theorem dateLE_dateLT_trans {x y z : Date} (h1 : dateLE x y = true)
    (h2 : dateLT y z = true) : dateLE x z = true := by
  rw [dateLE_iff] at h1 ⊢
  rw [dateLT_iff] at h2
  omega

/-- Abbreviation for the chronological sortedness of a series of
aggregated records. -/
abbrev sortedAgg (s : List AggRecord) : Prop :=
  s.Pairwise (fun p q => dateLT p.date q.date = true)

/-- On a chronologically sorted series, taking the prefix of records
with date at most b keeps exactly the records with date at most b. -/
theorem takeWhile_eq_filter_of_sorted (b : Date) :
    ∀ t : List AggRecord, sortedAgg t →
      t.takeWhile (fun r => dateLE r.date b) =
        t.filter (fun r => dateLE r.date b) := by
  intro t ht
  induction t with
  | nil => rfl
  | cons r t ih =>
    rcases List.pairwise_cons.mp ht with ⟨hr, ht2⟩
    cases hb : dateLE r.date b
    · rw [List.takeWhile_cons, List.filter_cons]
      simp only [hb, if_false, Bool.false_eq_true, ite_false]
      symm
      rw [List.filter_eq_nil_iff]
      intro q hq
      have hbq : dateLT b q.date = true :=
        dateLT_trans (dateLT_of_not_dateLE hb) (hr q hq)
      simp [not_dateLE_of_dateLT hbq]
    · rw [List.takeWhile_cons, List.filter_cons]
      simp only [hb, ite_true]
      rw [ih ht2]

/-- On a chronologically sorted series, the positional loc-slice of the
Window Selector retains exactly the records whose date lies in the
inclusive range. -/
theorem windowSelect_eq_filter (a b : Date) :
    ∀ s : List AggRecord, sortedAgg s →
      windowSelect s a b =
        s.filter (fun r => dateLE a r.date && dateLE r.date b) := by
  intro s hs
  induction s with
  | nil => rfl
  | cons r t ih =>
    rcases List.pairwise_cons.mp hs with ⟨hr, ht⟩
    cases ha : dateLT r.date a
    · have har : dateLE a r.date = true := dateLE_of_not_dateLT ha
      unfold windowSelect
      rw [List.dropWhile_cons]
      simp only [ha, Bool.false_eq_true, ite_false]
      rw [takeWhile_eq_filter_of_sorted b (r :: t) hs]
      apply List.filter_congr
      intro x hx
      have hax : dateLE a x.date = true := by
        rcases List.mem_cons.mp hx with h | h
        · rw [h]; exact har
        · exact dateLE_dateLT_trans har (hr x h)
      simp [hax]
    · have har : dateLE a r.date = false := not_dateLE_of_dateLT ha
      unfold windowSelect at ih ⊢
      rw [List.dropWhile_cons]
      simp only [ha, ite_true]
      rw [ih ht, List.filter_cons]
      simp [har]

/-- The Window Selector output is a sublist of its input series. -/
theorem windowSelect_sublist (s : List AggRecord) (a b : Date) :
    (windowSelect s a b).Sublist s :=
  (List.takeWhile_sublist _).trans (List.dropWhile_sublist _)

/-! Lemmas about the groupby month buckets and index alignment. -/

/-- The month-end label is a fixed point of labelling. -/
theorem monthLabel_idem (d : Date) : monthLabel (monthLabel d) = monthLabel d := rfl

/-- Two dates get the same month-end label exactly when they lie in the
same calendar month of the same year. -/
theorem monthLabel_eq_iff (q d : Date) :
    monthLabel q = monthLabel d ↔ (q.year = d.year ∧ q.month = d.month) := by
  constructor
  · intro h
    have h1 := congrArg Date.year h
    have h2 := congrArg Date.month h
    simp only [monthLabel] at h1 h2
    exact ⟨h1, h2⟩
  · intro h
    unfold monthLabel
    rw [h.1, h.2]

/-- A date is its own month-end label exactly when its day is the last
day of its month. -/
theorem monthLabel_eq_self_iff (d : Date) :
    monthLabel d = d ↔ d.day = daysInMonth d.year d.month := by
  constructor
  · intro h
    have := congrArg Date.day h
    simp [monthLabel] at this
    omega
  · intro h
    unfold monthLabel
    cases d
    simp_all

/-- Searching an association list built over distinct keys finds the
entry of a present key. -/
theorem find?_map_key {α β : Type} [DecidableEq α] (g : α → β) (x : α) :
    ∀ l : List α, l.Nodup → x ∈ l →
      (l.map (fun k => (k, g k))).find? (fun p => p.1 == x) = some (x, g x) := by
  intro l
  induction l with
  | nil => intro _ hx; cases hx
  | cons a l ih =>
    intro hnd hx
    rcases List.nodup_cons.mp hnd with ⟨ha, hnd2⟩
    rw [List.map_cons, List.find?_cons]
    by_cases hax : a = x
    · subst hax
      simp
    · have : ((a, g a).1 == x) = false := by simp [hax]
      rw [this]
      have hx2 : x ∈ l := by
        rcases List.mem_cons.mp hx with h | h
        · exact absurd h.symm hax
        · exact h
      exact ih hnd2 hx2

/-- Searching an association list built over keys misses an absent
key. -/
theorem find?_map_key_none {α β : Type} [DecidableEq α] (g : α → β) (x : α)
    (l : List α) (hx : x ∉ l) :
    (l.map (fun k => (k, g k))).find? (fun p => p.1 == x) = none := by
  rw [List.find?_eq_none]
  intro p hp
  rcases List.mem_map.mp hp with ⟨k, hk, hkp⟩
  subst hkp
  simp only [beq_iff_eq]
  intro h
  exact hx (h ▸ hk)

/-- Every key of the groupby-mean Series is a month-end label, hence a
fixed point of monthLabel. -/
theorem groupMeans_keys (s : List DailyRecord) (p : Date × ℚ)
    (hp : p ∈ groupMeans s) : monthLabel p.1 = p.1 := by
  unfold groupMeans at hp
  rcases List.mem_map.mp hp with ⟨l, hl, hlp⟩
  have := List.mem_dedup.mp hl
  rcases List.mem_map.mp this with ⟨r, _, hr⟩
  rw [← hlp]
  simp only
  rw [← hr]
  exact monthLabel_idem r.date

/-- On a month-end label, the bucket mean equals the arithmetic mean of
the smoothed values of the records of that calendar month. -/
theorem bucketMean_eq_monthMean (s : List DailyRecord) (d : Date)
    (hd : monthLabel d = d) :
    bucketMean s d = monthMean s d.year d.month := by
  unfold bucketMean monthMean
  have hfil : s.filter (fun q => monthLabel q.date == d) =
      s.filter (fun q => q.date.year == d.year && q.date.month == d.month) := by
    apply List.filter_congr
    intro q _
    have h2 := monthLabel_eq_iff q.date d
    rw [hd] at h2
    rw [Bool.eq_iff_iff]
    simp [beq_iff_eq, Bool.and_eq_true, h2]
  rw [hfil]

/-- Inversion of the Normalizer on success: the output is the pointwise
combine-and-drop image of the input rows. -/
theorem normalize_ok (rows : List RawRow) (recs : List DailyRecord)
    (h : normalize rows = Except.ok recs) :
    recs = rows.map (fun r => ⟨rowDate r, r.smoothed, r.trend⟩) := by
  unfold normalize at h
  split at h
  · exact (Except.ok.inj h).symm
  · exact Except.noConfusion h

/-- Length of the synthetic series. -/
theorem mkSeries_length (n : Nat) : (mkSeries n).length = n := by
  rw [mkSeries, List.length_map, List.length_range]

/-- Unfolding of date validity into arithmetic constraints. -/
theorem validDate_iff (d : Date) :
    validDate d = true ↔
      (1 ≤ d.year ∧ 1 ≤ d.month ∧ d.month ≤ 12 ∧ 1 ≤ d.day ∧
        d.day ≤ daysInMonth d.year d.month) := by
  simp only [validDate, Bool.and_eq_true, decide_eq_true_eq]
  omega

/-- Outside February the month length does not depend on the year. -/
theorem daysInMonth_ne_two (y1 y2 m : Nat) (hm : m ≠ 2) :
    daysInMonth y1 m = daysInMonth y2 m := by
  have h2 : (m == 2) = false := by simp [hm]
  simp [daysInMonth, h2]

/-- February's length as a function of leapness. -/
theorem daysInMonth_two (y : Nat) :
    daysInMonth y 2 = if isLeap y then 29 else 28 := by
  simp [daysInMonth]

/-- Validity of the date obtained by replacing the year of a valid
date: it fails only below MINYEAR or on February 29 of a non-leap
target year. -/
theorem validDate_replace_iff (d : Date) (hv : validDate d = true)
    (y : Nat) :
    validDate ⟨y, d.month, d.day⟩ = true ↔
      (1 ≤ y ∧ (d.month = 2 ∧ d.day = 29 → isLeap y = true)) := by
  rw [validDate_iff] at hv
  rw [validDate_iff]
  dsimp only
  obtain ⟨hy, hm1, hm2, hd1, hd2⟩ := hv
  by_cases hm : d.month = 2
  · rw [hm] at hd2 ⊢
    rw [daysInMonth_two] at hd2
    rw [daysInMonth_two]
    constructor
    · rintro ⟨h1, -, -, -, h5⟩
      refine ⟨h1, ?_⟩
      rintro ⟨-, h29⟩
      by_cases hly : isLeap y = true
      · exact hly
      · rw [if_neg hly] at h5
        omega
    · rintro ⟨h1, himp⟩
      refine ⟨h1, by omega, by omega, hd1, ?_⟩
      by_cases hly : isLeap y = true
      · rw [if_pos hly]
        by_cases hld : isLeap d.year = true
        · rw [if_pos hld] at hd2; omega
        · rw [if_neg hld] at hd2; omega
      · rw [if_neg hly]
        by_cases h29 : d.day = 29
        · exact absurd (himp ⟨rfl, h29⟩) hly
        · by_cases hld : isLeap d.year = true
          · rw [if_pos hld] at hd2; omega
          · rw [if_neg hld] at hd2; omega
  · rw [daysInMonth_ne_two y d.year d.month hm]
    constructor
    · rintro ⟨h1, -⟩
      exact ⟨h1, fun hc => absurd hc.1 hm⟩
    · rintro ⟨h1, -⟩
      exact ⟨h1, hm1, hm2, hd1, hd2⟩

/-! Claim theorems. -/

/-- C1 (amended): the monthly_mean assignment aligns the groupby-mean
Series with the frame index, so a record receives the arithmetic mean
of the smoothed values of its calendar month exactly when its date is
the last calendar day of that month, and receives null on every other
day.  In particular the mean is not broadcast to all days of the
month. -/
theorem co2_aggregate_monthly_mean (s : List DailyRecord) (r : AggRecord)
    (h : r ∈ aggregate s) :
    (r.date.day = daysInMonth r.date.year r.date.month →
      r.monthly_mean = some (monthMean s r.date.year r.date.month)) ∧
    (r.date.day ≠ daysInMonth r.date.year r.date.month →
      r.monthly_mean = none) := by
  rcases List.mem_map.mp h with ⟨r0, hr0, hr⟩
  subst hr
  constructor
  · intro hday
    have hml : monthLabel r0.date = r0.date :=
      (monthLabel_eq_self_iff r0.date).mpr hday
    have hmem : r0.date ∈ (s.map (fun q => monthLabel q.date)).dedup := by
      rw [List.mem_dedup]
      exact List.mem_map.mpr ⟨r0, hr0, hml⟩
    show alignLookup (groupMeans s) r0.date =
      some (monthMean s r0.date.year r0.date.month)
    unfold alignLookup groupMeans
    rw [find?_map_key (bucketMean s) r0.date _ (List.nodup_dedup _) hmem]
    show some (bucketMean s r0.date) =
      some (monthMean s r0.date.year r0.date.month)
    rw [bucketMean_eq_monthMean s r0.date hml]
  · intro hday
    have hml : monthLabel r0.date ≠ r0.date := fun hc =>
      hday ((monthLabel_eq_self_iff _).mp hc)
    have hmem : r0.date ∉ (s.map (fun q => monthLabel q.date)).dedup := by
      intro hc
      rw [List.mem_dedup] at hc
      rcases List.mem_map.mp hc with ⟨q, _, hq⟩
      apply hml
      rw [← hq, monthLabel_idem]
    show alignLookup (groupMeans s) r0.date = none
    unfold alignLookup groupMeans
    rw [find?_map_key_none (bucketMean s) r0.date _ hmem]
    rfl

/-- A two-record January 2023 series whose second record falls on the
last day of the month, used to exercise the aggregation theorem. -/
def exM : List DailyRecord :=
  [⟨⟨2023, 1, 30⟩, 420, 0⟩, ⟨⟨2023, 1, 31⟩, 422, 0⟩]

/-- The aggregated record of exM that falls on the month-end day. -/
def exAggRec : AggRecord :=
  ⟨⟨2023, 1, 31⟩, 422, 0, alignLookup (groupMeans exM) ⟨2023, 1, 31⟩⟩

/-- Witness for C1 (amended) at a concrete series: the record on
2023-01-31 is a member of the aggregated series and carries the month
mean. -/
theorem co2_aggregate_monthly_mean_witness :
    (exAggRec.date.day = daysInMonth exAggRec.date.year exAggRec.date.month →
      exAggRec.monthly_mean =
        some (monthMean exM exAggRec.date.year exAggRec.date.month)) ∧
    (exAggRec.date.day ≠ daysInMonth exAggRec.date.year exAggRec.date.month →
      exAggRec.monthly_mean = none) :=
  co2_aggregate_monthly_mean exM exAggRec
    (List.mem_map.mpr ⟨⟨⟨2023, 1, 31⟩, 422, 0⟩, by simp [exM], rfl⟩)

/-- C1 counterexample: on the literal scenario feed 2023-01-01,
2023-01-02, 2023-01-03 with smoothed 420, 421, 422, the aggregation
leaves monthly_mean null on all three records, not 421 on all three as
claimed. -/
theorem co2_c1_counterexample :
    normalize exRows = Except.ok exRecs ∧
    (aggregate exRecs).map (fun r => r.monthly_mean) = [none, none, none] ∧
    ¬ (∀ r ∈ aggregate exRecs, r.monthly_mean = some (421 : ℚ)) :=
  ⟨rfl, by decide, by decide⟩

/-- C2: anchor extraction is purely positional: for any filtered series
of length L at least 366 — whatever its dates — it succeeds and returns
yesterday from position L-1 and year_ago from position L-366. -/
theorem co2_anchors_positional (s : List AggRecord) (h : 366 ≤ s.length) :
    ∃ y a, anchors s = Except.ok (y, a) ∧
      s[s.length - 1]? = some y ∧ s[s.length - 366]? = some a := by
  have h1 : 1 ≤ s.length := by omega
  refine ⟨s.get ⟨s.length - 1, by omega⟩, s.get ⟨s.length - 366, by omega⟩,
    ?_, ?_, ?_⟩
  · simp [anchors, h1, h]
  · rw [List.getElem?_eq_getElem (by omega)]
    rfl
  · rw [List.getElem?_eq_getElem (by omega)]
    rfl

/-- Witness for C2 at a concrete 366-record series. -/
theorem co2_anchors_positional_witness :
    ∃ y a, anchors (mkSeries 366) = Except.ok (y, a) ∧
      (mkSeries 366)[(mkSeries 366).length - 1]? = some y ∧
      (mkSeries 366)[(mkSeries 366).length - 366]? = some a :=
  co2_anchors_positional (mkSeries 366) (by rw [mkSeries_length])

/-- C3: with at least one but fewer than 366 records the anchor
extraction fails with the IndexError-equivalent; with exactly 366
records it succeeds, year_ago being the first record of the filtered
series and yesterday the last. -/
theorem co2_anchors_boundary (s : List AggRecord) :
    (1 ≤ s.length → s.length < 366 →
      anchors s = Except.error PErr.indexError) ∧
    (s.length = 366 → ∃ y a, anchors s = Except.ok (y, a) ∧
      s.head? = some a ∧ s.getLast? = some y) := by
  constructor
  · intro h1 h2
    simp [anchors, h1, show ¬ 366 ≤ s.length by omega]
  · intro h
    have h1 : 1 ≤ s.length := by omega
    have h366 : 366 ≤ s.length := by omega
    refine ⟨s.get ⟨s.length - 1, by omega⟩, s.get ⟨0, by omega⟩, ?_, ?_, ?_⟩
    · have hfin : (⟨s.length - 366, by omega⟩ : Fin s.length) =
          ⟨0, by omega⟩ := by
        apply Fin.ext
        simp
        omega
      simp only [anchors, h1, h366, dif_pos]
      rw [hfin]
    · rw [List.head?_eq_getElem?, List.getElem?_eq_getElem (by omega)]
      rfl
    · rw [List.getLast?_eq_getElem?, List.getElem?_eq_getElem (by omega)]
      rfl

/-- Witness for C3 at concrete series of lengths 365 and 366. -/
theorem co2_anchors_boundary_witness :
    anchors (mkSeries 365) = Except.error PErr.indexError ∧
    (∃ y a, anchors (mkSeries 366) = Except.ok (y, a) ∧
      (mkSeries 366).head? = some a ∧ (mkSeries 366).getLast? = some y) :=
  ⟨(co2_anchors_boundary (mkSeries 365)).1 (by rw [mkSeries_length]; omega)
      (by rw [mkSeries_length]; omega),
    (co2_anchors_boundary (mkSeries 366)).2 (mkSeries_length 366)⟩

/-- C4 counterexample: an empty filtered series fails with exactly the
same error value as a 365-record series, so the empty-window failure is
not an error kind distinct from the insufficient-history failure: both
are the IndexError of positional lookup, and the yesterday extraction
is what raises it. -/
theorem co2_c4_counterexample :
    anchors ([] : List AggRecord) = anchors (mkSeries 365) ∧
    anchors ([] : List AggRecord) = Except.error PErr.indexError := by
  have h0 : anchors ([] : List AggRecord) = Except.error PErr.indexError := rfl
  have h365 : anchors (mkSeries 365) = Except.error PErr.indexError := by
    have hl := mkSeries_length 365
    simp [anchors, hl]
  exact ⟨h0.trans h365.symm, h0⟩

/-- C4 (amended): if window filtering produces an empty series, the run
fails with the IndexError-equivalent raised by the anchor extraction on
the empty series, the same error kind as the insufficient-history case;
no series and no anchor records are returned, so no image is
produced. -/
theorem co2_empty_window_fails (rows : List RawRow) (recs : List DailyRecord)
    (today startD : Date) (n : Nat)
    (h1 : normalize rows = Except.ok recs)
    (h2 : replaceYear today (today.year - n) = Except.ok startD)
    (h3 : windowSelect (aggregate recs) startD today = []) :
    runPipeline rows today n = Except.error PErr.indexError := by
  unfold runPipeline
  rw [h1]
  show (replaceYear today (today.year - n)).bind _ = _
  rw [h2]
  show (anchors (windowSelect (aggregate recs) startD today)).bind _ = _
  rw [h3]
  rfl

/-- Witness for C4 (amended): the scenario feed of January 2023 with
today 2025-01-01 and a one-year window filters to an empty series and
the run fails with the IndexError-equivalent. -/
theorem co2_empty_window_fails_witness :
    runPipeline exRows ⟨2025, 1, 1⟩ 1 = Except.error PErr.indexError :=
  co2_empty_window_fails exRows exRecs ⟨2025, 1, 1⟩ ⟨2024, 1, 1⟩ 1 rfl rfl rfl

/-- C5: on a chronologically sorted series, with the window bounds
computed from today and the lookback year count, the Window Selector
retains exactly the records whose date lies in the inclusive range
from start_date to end_date: every retained record is in range and no
in-range record is dropped. -/
theorem co2_window_membership (s : List AggRecord) (today startD : Date)
    (n : Nat) (hs : sortedAgg s)
    (_hrep : replaceYear today (today.year - n) = Except.ok startD)
    (r : AggRecord) :
    r ∈ windowSelect s startD today ↔
      (r ∈ s ∧ dateLE startD r.date = true ∧ dateLE r.date today = true) := by
  rw [windowSelect_eq_filter startD today s hs, List.mem_filter,
    Bool.and_eq_true]

/-- Witness for C5 on the scenario feed, with today 2024-01-02 and a
one-year lookback: the record of 2023-01-02 is retained and lies in the
window. -/
theorem co2_window_membership_witness :
    (⟨⟨2023, 1, 2⟩, 421, 4196/10,
        alignLookup (groupMeans exRecs) ⟨2023, 1, 2⟩⟩ : AggRecord) ∈
        windowSelect (aggregate exRecs) ⟨2023, 1, 2⟩ ⟨2024, 1, 2⟩ ↔
      ((⟨⟨2023, 1, 2⟩, 421, 4196/10,
          alignLookup (groupMeans exRecs) ⟨2023, 1, 2⟩⟩ : AggRecord) ∈
          aggregate exRecs ∧
        dateLE ⟨2023, 1, 2⟩ ⟨2023, 1, 2⟩ = true ∧
        dateLE ⟨2023, 1, 2⟩ ⟨2024, 1, 2⟩ = true) :=
  co2_window_membership (aggregate exRecs) ⟨2024, 1, 2⟩ ⟨2023, 1, 2⟩ 1
    (by decide) rfl
    ⟨⟨2023, 1, 2⟩, 421, 4196/10, alignLookup (groupMeans exRecs) ⟨2023, 1, 2⟩⟩

/-- C6: on success the Normalizer returns one record per raw row, in
order, each indexed by the calendar date combined from the year, month
and day columns, with the smoothed and trend values carried over
unchanged; the record type has no year, month or day fields left. -/
theorem co2_normalize_combine (rows : List RawRow) (recs : List DailyRecord)
    (h : normalize rows = Except.ok recs) :
    recs.length = rows.length ∧
    ∀ (i : Nat) (p : RawRow), rows[i]? = some p →
      recs[i]? = some ⟨rowDate p, p.smoothed, p.trend⟩ := by
  have heq := normalize_ok rows recs h
  subst heq
  constructor
  · exact List.length_map _ _
  · intro i p hp
    rw [List.getElem?_map, hp]
    rfl

/-- Witness for C6 on the scenario feed. -/
theorem co2_normalize_combine_witness :
    exRecs.length = exRows.length ∧
    exRecs[0]? = some ⟨rowDate ⟨2023, 1, 1, 420, 4195/10⟩, 420, 4195/10⟩ :=
  ⟨(co2_normalize_combine exRows exRecs rfl).1,
    (co2_normalize_combine exRows exRecs rfl).2 0 ⟨2023, 1, 1, 420, 4195/10⟩
      rfl⟩

/-- C7: a valid feed, whose rows carry strictly increasing dates, is
normalized to a series strictly sorted by date with no duplicates, and
this strict chronological order is preserved by the Aggregator and by
the Window Selector. -/
theorem co2_sorted_pipeline (rows : List RawRow) (recs : List DailyRecord)
    (a b : Date)
    (hfeed : rows.Pairwise (fun p q => dateLT (rowDate p) (rowDate q) = true))
    (h : normalize rows = Except.ok recs) :
    recs.Pairwise (fun p q => dateLT p.date q.date = true) ∧
    sortedAgg (aggregate recs) ∧
    sortedAgg (windowSelect (aggregate recs) a b) := by
  have heq := normalize_ok rows recs h
  subst heq
  have h1 : (rows.map fun r =>
      (⟨rowDate r, r.smoothed, r.trend⟩ : DailyRecord)).Pairwise
      (fun p q => dateLT p.date q.date = true) := by
    rw [List.pairwise_map]
    exact hfeed
  have h2 : sortedAgg (aggregate (rows.map fun r =>
      (⟨rowDate r, r.smoothed, r.trend⟩ : DailyRecord))) := by
    unfold sortedAgg aggregate
    rw [List.pairwise_map, List.pairwise_map]
    exact hfeed
  exact ⟨h1, h2, h2.sublist (windowSelect_sublist _ a b)⟩

/-- Witness for C7 on the scenario feed. -/
theorem co2_sorted_pipeline_witness :
    exRecs.Pairwise (fun p q => dateLT p.date q.date = true) ∧
    sortedAgg (aggregate exRecs) ∧
    sortedAgg (windowSelect (aggregate exRecs) ⟨2023, 1, 2⟩ ⟨2024, 1, 2⟩) :=
  co2_sorted_pipeline exRows exRecs ⟨2023, 1, 2⟩ ⟨2024, 1, 2⟩ (by decide) rfl

/-- C8: the data-preparation pipeline is deterministic: two runs on the
same feed content with the same today and the same lookback produce
identical results, series and anchors alike. -/
theorem co2_pipeline_deterministic (rows1 rows2 : List RawRow)
    (t1 t2 : Date) (n1 n2 : Nat)
    (h1 : rows1 = rows2) (h2 : t1 = t2) (h3 : n1 = n2) :
    runPipeline rows1 t1 n1 = runPipeline rows2 t2 n2 := by
  rw [h1, h2, h3]

/-- Witness for C8: two identical runs on the scenario feed coincide. -/
theorem co2_pipeline_deterministic_witness :
    runPipeline exRows ⟨2025, 1, 1⟩ 1 = runPipeline exRows ⟨2025, 1, 1⟩ 1 :=
  co2_pipeline_deterministic exRows exRows ⟨2025, 1, 1⟩ ⟨2025, 1, 1⟩ 1 1
    rfl rfl rfl

/-- C9 (amended): for a valid today's date, the start-date computation
(replacing the year by today's year minus the lookback) raises the
ValueError-equivalent exactly when the reduced year is 0 (below the
MINYEAR bound of Python dates, which the truncated subtraction reaches
when the lookback exceeds the year) or when today is February 29 and
the reduced year is not a leap year; in every other case it succeeds,
returning today's date with the year replaced, before any filtering
runs. -/
theorem co2_replace_year_charac (today : Date) (n : Nat)
    (hv : validDate today = true) :
    (replaceYear today (today.year - n) = Except.error PErr.valueError ↔
      (today.year - n = 0 ∨
        (today.month = 2 ∧ today.day = 29 ∧
          isLeap (today.year - n) = false))) ∧
    (replaceYear today (today.year - n) ≠ Except.error PErr.valueError →
      replaceYear today (today.year - n) =
        Except.ok ⟨today.year - n, today.month, today.day⟩) := by
  have hiff := validDate_replace_iff today hv (today.year - n)
  unfold replaceYear
  by_cases hval :
      validDate ⟨today.year - n, today.month, today.day⟩ = true
  · rw [if_pos hval]
    constructor
    · constructor
      · intro hcon
        exact absurd hcon (by simp)
      · intro hOr
        exfalso
        rcases hiff.mp hval with ⟨h1, himp⟩
        rcases hOr with h0 | ⟨hm, hd, hleap⟩
        · omega
        · have hl := himp ⟨hm, hd⟩
          rw [hleap] at hl
          simp at hl
    · intro _
      rfl
  · rw [if_neg hval]
    constructor
    · refine ⟨fun _ => ?_, fun _ => rfl⟩
      have hnot : ¬ (1 ≤ today.year - n ∧
          (today.month = 2 ∧ today.day = 29 →
            isLeap (today.year - n) = true)) :=
        fun hc => hval (hiff.mpr hc)
      push_neg at hnot
      by_cases h0 : today.year - n = 0
      · exact Or.inl h0
      · rcases hnot (by omega) with ⟨⟨hm, hd⟩, hleap⟩
        refine Or.inr ⟨hm, hd, ?_⟩
        cases hlb : isLeap (today.year - n)
        · rfl
        · exact absurd hlb hleap
    · intro hcon
      exact absurd rfl hcon

/-- Witness for C9 (amended) with today 2024-02-29 and a one-year
lookback: 2023 is not a leap year, so the computation fails with the
ValueError-equivalent. -/
theorem co2_replace_year_charac_witness :
    (replaceYear ⟨2024, 2, 29⟩ (Date.year ⟨2024, 2, 29⟩ - 1) =
        Except.error PErr.valueError ↔
      (Date.year ⟨2024, 2, 29⟩ - 1 = 0 ∨
        (Date.month ⟨2024, 2, 29⟩ = 2 ∧ Date.day ⟨2024, 2, 29⟩ = 29 ∧
          isLeap (Date.year ⟨2024, 2, 29⟩ - 1) = false))) ∧
    (replaceYear ⟨2024, 2, 29⟩ (Date.year ⟨2024, 2, 29⟩ - 1) ≠
        Except.error PErr.valueError →
      replaceYear ⟨2024, 2, 29⟩ (Date.year ⟨2024, 2, 29⟩ - 1) =
        Except.ok ⟨Date.year ⟨2024, 2, 29⟩ - 1, Date.month ⟨2024, 2, 29⟩,
          Date.day ⟨2024, 2, 29⟩⟩) :=
  co2_replace_year_charac ⟨2024, 2, 29⟩ 1 (by decide)

/-- C9 counterexample: today 0005-03-01 is a valid date that is not
February 29, yet with the lookback of 10 years of the source the
start-date computation still fails (the truncated year replacement
falls below MINYEAR), refuting that the computation succeeds on every
non-February-29 today. -/
theorem co2_c9_counterexample :
    validDate ⟨5, 3, 1⟩ = true ∧
    ¬ (Date.month ⟨5, 3, 1⟩ = 2 ∧ Date.day ⟨5, 3, 1⟩ = 29) ∧
    replaceYear ⟨5, 3, 1⟩ (Date.year ⟨5, 3, 1⟩ - 10) =
      Except.error PErr.valueError :=
  ⟨by decide, by decide, rfl⟩

/-- C10: aggregation only adds the monthly_mean field — it keeps
length, order, dates and the smoothed and trend values of every
record — and window selection only removes whole records, so every
record surviving the window keeps the smoothed and trend values the
Normalizer produced for its date. -/
theorem co2_frame_property (rows : List RawRow) (recs : List DailyRecord)
    (a b : Date) (_h : normalize rows = Except.ok recs) :
    ((aggregate recs).length = recs.length ∧
      ∀ (i : Nat) (p : DailyRecord) (q : AggRecord),
        recs[i]? = some p → (aggregate recs)[i]? = some q →
          q.date = p.date ∧ q.smoothed = p.smoothed ∧ q.trend = p.trend) ∧
    (windowSelect (aggregate recs) a b).Sublist (aggregate recs) ∧
    ∀ r2 ∈ windowSelect (aggregate recs) a b,
      ∃ r1 ∈ recs, r2.date = r1.date ∧ r2.smoothed = r1.smoothed ∧
        r2.trend = r1.trend := by
  refine ⟨⟨List.length_map _ _, ?_⟩, windowSelect_sublist _ a b, ?_⟩
  · intro i p q hp hq
    unfold aggregate at hq
    rw [List.getElem?_map, hp] at hq
    have hq2 := Option.some.inj hq
    rw [← hq2]
    exact ⟨rfl, rfl, rfl⟩
  · intro r2 hr2
    have hmem : r2 ∈ aggregate recs :=
      (windowSelect_sublist (aggregate recs) a b).subset hr2
    rcases List.mem_map.mp hmem with ⟨r1, hr1, hr⟩
    rw [← hr]
    exact ⟨r1, hr1, rfl, rfl, rfl⟩

/-- Witness for C10 on the scenario feed with a window retaining two of
the three records. -/
theorem co2_frame_property_witness :
    ((aggregate exRecs).length = exRecs.length ∧
      ∀ (i : Nat) (p : DailyRecord) (q : AggRecord),
        exRecs[i]? = some p → (aggregate exRecs)[i]? = some q →
          q.date = p.date ∧ q.smoothed = p.smoothed ∧ q.trend = p.trend) ∧
    (windowSelect (aggregate exRecs) ⟨2023, 1, 2⟩ ⟨2024, 1, 2⟩).Sublist
      (aggregate exRecs) ∧
    ∀ r2 ∈ windowSelect (aggregate exRecs) ⟨2023, 1, 2⟩ ⟨2024, 1, 2⟩,
      ∃ r1 ∈ exRecs, r2.date = r1.date ∧ r2.smoothed = r1.smoothed ∧
        r2.trend = r1.trend :=
  co2_frame_property exRows exRecs ⟨2023, 1, 2⟩ ⟨2024, 1, 2⟩ rfl

end CO2
